import Mathlib

/-!
Verification of the ingestion and batch-processing pipeline of the
Semantic-Document-Explorer repository against its specification.

The Python sources are shallowly embedded: strings are modelled as lists of
characters (Python slicing included, with its negative-index clamping), the
remote Drive service is modelled as an oracle giving the outcome of each API
attempt, and the stateful traversal is modelled as a fueled recursive function
threading the visited set explicitly.  All definitions are executable so that
every statement can also be checked on concrete inputs.
-/

namespace SDE

/-! ### Content truncation (ReportGeneretor.extract_and_truncate_content_simple) -/

/-- The visible truncation marker appended by the source
(ReportGeneretor.py line 158). -/
def truncation_warning : List Char :=
  "\n\n[... CONTEÚDO TRUNCADO DEVIDO AO LIMITE DE CARACTERES ...]".data

/-- Python slicing s[:k] for an arbitrary integer bound: a negative bound
counts from the end of the string and clamps at zero. -/
def pySliceTo (l : List Char) (k : Int) : List Char :=
  if 0 ≤ k then l.take k.toNat else l.take (l.length - (-k).toNat)

/-- Model of the character-budget truncation performed by
extract_and_truncate_content_simple (ReportGeneretor.py lines 153-163) on the
already-extracted content.  The word count is taken before truncation and the
returned content is the possibly-truncated text. -/
def extract_and_truncate_content_simple (content : List Char) (max_chars : Nat) :
    List Char :=
  if max_chars < content.length then
    let c1 := content.take max_chars
    let c2 :=
      if max_chars < c1.length + truncation_warning.length then
        pySliceTo c1 ((max_chars : Int) - truncation_warning.length - 1)
      else c1
    c2 ++ truncation_warning
  else content

/-! ### Retry policy of the transfer engine (DataBaseManager.py) -/

/-- The exceptions the transfer engine distinguishes: an HTTP error carrying a
status code, the generic TimeoutError, and any other exception. -/
inductive DriveExc where
  | http (status : Nat)
  | timeoutExc
  | otherExc
deriving DecidableEq, Repr

/-- DataBaseManager.is_retryable_http_error: HTTP 5xx, 408 and 429 justify a
new attempt; everything else does not. -/
def is_retryable_http_error : DriveExc → Bool
  | .http s => decide (500 ≤ s) || decide (s = 408) || decide (s = 429)
  | _ => false

/-- The retry condition both tenacity decorators use,
retry_if_exception_type((HttpError, TimeoutError)): it looks only at the
exception type, never at the HTTP status code. -/
def tenacity_retry_on : DriveExc → Bool
  | .http _ => true
  | .timeoutExc => true
  | .otherExc => false

/-- Tenacity loop with stop_after_attempt: run the body; on an exception of a
retried type, try again while attempts remain, else re-raise (reraise=True).
Returns the final outcome together with the number of attempts consumed. -/
def retry_go {α : Type} (body : Nat → Except DriveExc α)
    (attempt remaining : Nat) : Except DriveExc α × Nat :=
  match body attempt with
  | .ok a => (.ok a, attempt)
  | .error e =>
    if h : tenacity_retry_on e = true ∧ 1 < remaining then
      retry_go body (attempt + 1) (remaining - 1)
    else (.error e, attempt)
termination_by remaining
decreasing_by omega

/-- A decorated call starts at attempt 1 with the configured attempt budget. -/
def run_with_retry {α : Type} (stop_attempts : Nat)
    (body : Nat → Except DriveExc α) : Except DriveExc α × Nat :=
  retry_go body 1 stop_attempts

/-- Minimal file metadata fetched by _get_file_metadata. -/
structure FileMeta where
  name : List Char
  mimeType : String
deriving DecidableEq, Repr

/-- Raw outcome of one metadata API attempt. -/
inductive MetaRaw where
  | ok (meta : FileMeta)
  | exc (e : DriveExc)
deriving DecidableEq, Repr

/-- Body of _get_file_metadata (DataBaseManager.py lines 66-92): a
non-retryable HttpError is swallowed and turned into a None return (which
tenacity treats as success), a retryable HttpError, a TimeoutError and any
unexpected exception are re-raised for tenacity to inspect. -/
def get_file_metadata_body (raw : Nat → MetaRaw) (attempt : Nat) :
    Except DriveExc (Option FileMeta) :=
  match raw attempt with
  | .ok m => .ok (some m)
  | .exc (.http s) =>
    if is_retryable_http_error (.http s) then .error (.http s) else .ok none
  | .exc .timeoutExc => .error .timeoutExc
  | .exc .otherExc => .error .otherExc

/-- The decorated _get_file_metadata: stop_after_attempt(3). -/
def get_file_metadata (raw : Nat → MetaRaw) :
    Except DriveExc (Option FileMeta) × Nat :=
  run_with_retry 3 (get_file_metadata_body raw)

/-- Body of _download_or_export_file_attempt (DataBaseManager.py lines
142-181): every exception, HTTP or not, retryable status or not, is re-raised
unchanged for tenacity. -/
def download_or_export_body (raw : Nat → Option DriveExc) (attempt : Nat) :
    Except DriveExc Unit :=
  match raw attempt with
  | none => .ok ()
  | some e => .error e

/-- The decorated _download_or_export_file_attempt: stop_after_attempt(2). -/
def download_or_export_file_attempt (raw : Nat → Option DriveExc) :
    Except DriveExc Unit × Nat :=
  run_with_retry 2 (download_or_export_body raw)

/-! ### Download pipeline (DataBaseManager.download_file and helpers) -/

/-- GOOGLE_DOCS_EXPORT_MIMETYPES (DataBaseManager.py lines 26-30). -/
def google_docs_export_mimetypes : String → Option String
  | "application/vnd.google-apps.document" => some "application/pdf"
  | "application/vnd.google-apps.spreadsheet" =>
    some "application/vnd.openxmlformats-officedocument.spreadsheetml.sheet"
  | "application/vnd.google-apps.presentation" => some "application/pdf"
  | _ => none

/-- EXPORT_EXTENSIONS (DataBaseManager.py lines 32-35). -/
def export_extensions : String → Option String
  | "application/pdf" => some ".pdf"
  | "application/vnd.openxmlformats-officedocument.spreadsheetml.sheet" =>
    some ".xlsx"
  | _ => none

/-- Index of the last dot of a file name, if any. -/
def last_dot_index (name : List Char) : Option Nat :=
  ((List.range name.length).filter (fun i => name.getD i ' ' == '.')).getLast?

/-- The base part of os.path.splitext: everything before the last dot, except
that a name whose characters before the last dot are all dots (such as a
hidden file like .bashrc) has no extension split off. -/
def splitext_base (name : List Char) : List Char :=
  match last_dot_index name with
  | none => name
  | some i => if (name.take i).all (· == '.') then name else name.take i

/-- Final-name logic of _prepare_file_download (DataBaseManager.py lines
120-134): a virtual Google document gets the extension of its export format
(with .bin as fallback); any other file keeps its original name. -/
def prepare_final_name (name : List Char) (mime : String) : List Char :=
  match google_docs_export_mimetypes mime with
  | none => name
  | some em => splitext_base name ++ ((export_extensions em).getD ".bin").data

/-- Oracle for one download_file run: the outcome of each metadata attempt,
whether creating the destination directory succeeds, the outcome of each
stream-open attempt, whether the chunk loop succeeds (its internal per-chunk
retries included), and whether the final save succeeds. -/
structure DLOracle where
  meta : Nat → MetaRaw
  ensure_dir : Bool
  stream : Nat → Option DriveExc
  chunks_ok : Bool
  save_ok : Bool

/-- _prepare_file_download (DataBaseManager.py lines 94-134): any exception
escaping the retried metadata fetch is caught and turned into None, as is a
None metadata result; otherwise the export mime type and final name are
computed. -/
def prepare_file_download (raw : Nat → MetaRaw) :
    Option (Option String × List Char) :=
  match (get_file_metadata raw).1 with
  | .error _ => none
  | .ok none => none
  | .ok (some md) =>
    some (google_docs_export_mimetypes md.mimeType,
      prepare_final_name md.name md.mimeType)

/-- download_file (DataBaseManager.py lines 183-233): preparation, directory
creation, retried stream-open, chunk download and save in sequence; every
failure is converted into a None return and only a fully successful run
returns the joined destination path. -/
def download_file (o : DLOracle) (destination_path : List Char) :
    Option (List Char) :=
  match prepare_file_download o.meta with
  | none => none
  | some (_, final_file_name) =>
    if o.ensure_dir = false then none
    else
      match (download_or_export_file_attempt o.stream).1 with
      | .error _ => none
      | .ok _ =>
        if o.chunks_ok = false then none
        else if o.save_ok then
          some (destination_path ++ '/' :: final_file_name)
        else none

/-! ### Batch partitioning (ReportGeneretor.process_batches lines 517-521 and
Main.file_batches line 38) -/

/-- Model of the slicing loop: both Main.py line 38 and the for-loop of
process_batches walk the file list in steps of the batch size, taking one
slice per step.  A step of zero is a Python ValueError; the model returns no
batches in that case. -/
def file_batches (l : List α) (k : Nat) : List (List α) :=
  match l, k with
  | _, 0 => []
  | [], _ => []
  | x :: xs, m + 1 => (x :: xs).take (m + 1) :: file_batches ((x :: xs).drop (m + 1)) (m + 1)
termination_by l.length
decreasing_by
  simp only [List.length_drop, List.length_cons]
  omega

/-! ### Tree walker (DataBaseManager.list_files, _scan_items,
list_files_recursively, list_drive_files) -/

/-- One item of a listing page: its id and whether its mimeType is the
folder type application/vnd.google-apps.folder. -/
structure DriveItem where
  id : Nat
  isFolder : Bool
deriving DecidableEq, Repr

/-- The remote tree: each folder id maps to the pages its paginated child
listing returns.  An id absent from the table lists no children. -/
abbrev DriveGraph := List (Nat × List (List DriveItem))

/-- The pages the listing API returns for one folder. -/
def children_pages (g : DriveGraph) (folder_id : Nat) : List (List DriveItem) :=
  match g.find? (fun e => e.1 == folder_id) with
  | some e => e.2
  | none => []

mutual
/-- list_files_recursively (DataBaseManager.py lines 287-338): a folder
already in _processed_folders is skipped with an empty result; otherwise it
is marked visited and its pages are consumed.  The result is the collected
file ids together with the updated visited set (the source mutates
self._processed_folders in place; the model threads it).  The fuel argument
only makes the model total; walkF_stable below shows every fuel of at least
walk_fuel g computes the same result, which is the termination property of
the source recursion. -/
def walkF (g : DriveGraph) : Nat → Finset Nat → Nat → List Nat × Finset Nat
  | 0, visited, _ => ([], visited)
  | n + 1, visited, folder_id =>
    if folder_id ∈ visited then ([], visited)
    else pagesF g n (children_pages g folder_id) (insert folder_id visited)
termination_by n _ _ => (n, 0)

/-- The pagination while-loop of list_files_recursively (lines 308-326):
scan page after page, extending the collected files, until no continuation
token remains. -/
def pagesF (g : DriveGraph) :
    Nat → List (List DriveItem) → Finset Nat → List Nat × Finset Nat
  | _, [], visited => ([], visited)
  | n, page :: rest, visited =>
    let r1 := scanF g n page visited
    let r2 := pagesF g n rest r1.2
    (r1.1 ++ r2.1, r2.2)
termination_by n pages _ => (n, sizeOf pages)

/-- _scan_items (lines 262-284): recurse into an unvisited subfolder, skip a
visited one (logging only), append a file to the collected list. -/
def scanF (g : DriveGraph) :
    Nat → List DriveItem → Finset Nat → List Nat × Finset Nat
  | _, [], visited => ([], visited)
  | n, item :: rest, visited =>
    if item.isFolder then
      if item.id ∈ visited then scanF g n rest visited
      else
        let r1 := walkF g n visited item.id
        let r2 := scanF g n rest r1.2
        (r1.1 ++ r2.1, r2.2)
    else
      let r := scanF g n rest visited
      (item.id :: r.1, r.2)
termination_by n items _ => (n, sizeOf items)
end

/-- The folder ids the table knows. -/
def folder_keys (g : DriveGraph) : Finset Nat := (g.map Prod.fst).toFinset

/-- Enough fuel to run any traversal of g to completion. -/
def walk_fuel (g : DriveGraph) : Nat := (folder_keys g).card + 1

/-- The traversal at its canonical fuel: the model of one
list_files_recursively call on an instance whose _processed_folders equals
visited. -/
def list_files_recursively (g : DriveGraph) (visited : Finset Nat)
    (folder_id : Nat) : List Nat × Finset Nat :=
  walkF g (walk_fuel g) visited folder_id

/-- list_drive_files (DataBaseManager.py lines 427-442): clears
_processed_folders before starting, so the persisted state of the instance is
discarded and the traversal starts from an empty visited set. -/
def list_drive_files (g : DriveGraph) (state : Finset Nat) (folder_id : Nat) :
    List Nat × Finset Nat :=
  list_files_recursively g ∅ folder_id

/-- list_files (DataBaseManager.py lines 235-260): one files().list call
without a pageToken, returning the items of the first page only; the
nextPageToken it requests is never consumed.  The input is the page sequence
the server would deliver for the folder-excluding query. -/
def list_files (pages : List (List DriveItem)) : List DriveItem :=
  pages.headD []

/-- How often the file f occurs among the listed items. -/
def occ_file (f : Nat) (items : List DriveItem) : Nat :=
  items.countP (fun i => !i.isFolder && i.id == f)

/-- How often the file f occurs in a page sequence. -/
def occ_pages (f : Nat) (pages : List (List DriveItem)) : Nat :=
  occ_file f pages.flatten

/-- Total occurrences of the file f in the pages of the folders not yet
visited: an upper bound for how often a traversal can still return f. -/
def unvisited_occ (g : DriveGraph) (f : Nat) (visited : Finset Nat) : Nat :=
  (folder_keys g \ visited).sum (fun k => occ_pages f (children_pages g k))

/-- A cyclic graph: folder 1 contains folders 2 and 3; folder 2 contains the
file 10 and a link back to folder 1; folder 3 contains the file 10 as well. -/
def cycle_graph : DriveGraph :=
  [(1, [[⟨2, true⟩, ⟨3, true⟩]]),
   (2, [[⟨10, false⟩, ⟨1, true⟩]]),
   (3, [[⟨10, false⟩]])]

/-- A one-folder graph holding a single file. -/
def tiny_graph : DriveGraph := [(1, [[⟨10, false⟩]])]

/-- A folder whose children span two pages. -/
def paged_graph : DriveGraph := [(1, [[⟨10, false⟩], [⟨11, false⟩]])]

/-! ### Report consolidation (ReportGeneretor.save_final_report) -/

/-- Markdown separator between batch fragments (ReportGeneretor.py line 461). -/
def report_separator : String := "\n\n---\n\n"

/-- The artifact name (ReportGeneretor.py line 464): a fixed string.  The
timestamp computed on line 463 is never interpolated into it. -/
def final_report_filename : String := "FINAL_consolidated_drive_report.md"

/-- Title header written at the top of the artifact (line 469). -/
def report_title : String := "# Relatório Consolidado de Análise de Documentos\n"

/-- Environment of one save_final_report call: the strftime result of line
463 (computed and never used), the strftime result of line 470 (embedded in
the content), and whether directory creation and the write succeed. -/
structure ReportEnv where
  now_name_ts : String
  now_gen_ts : String
  dir_ok : Bool
  write_ok : Bool

/-- save_final_report (ReportGeneretor.py lines 441-478): nothing is written
for an empty fragment list or when the report directory cannot be created;
otherwise one artifact (filename, content) is produced, whose content is the
title, a generation-timestamp line, and the fragments joined by the
separator. -/
def save_final_report (all_reports_content : List String) (env : ReportEnv) :
    Option (String × String) :=
  if all_reports_content.isEmpty then none
  else if env.dir_ok = false then none
  else
    let final_report_text := report_separator.intercalate all_reports_content
    let content :=
      report_title ++ "*Gerado em: " ++ env.now_gen_ts ++ "*\n\n" ++
        final_report_text
    if env.write_ok then some (final_report_filename, content) else none

/-! ### Batch orchestration (ReportGeneretor.process_batches lines 498-588)

Each job (process_file_in_batch) is summarised by an oracle over the fate of
its unique destination path: whether the download thread reaches _save_file
and open(file_path, "wb") creates the file, whether the write then completes
(only then does download_file return the path; a failed write leaves a
partial file behind a None return), whether the 180s logical timeout fired
before the thread finished, whether the post-download processing (task
creation etc.) raised, and whether os.remove on the path succeeds when some
handler attempts it (both the per-job except handler and cleanup_temp_files
swallow removal errors).  Extraction failures do not fail a job:
extract_and_truncate_content_simple converts them into error content, and
create_document_analysis_tasks and create_reporting_tasks of Tasks.py return
literal nonempty task lists, so a job that downloads in time and raises
nothing yields a valid (task, path) pair.  Paths are numbered abstractly. -/

/-- Oracle for one job of a batch. -/
structure JobSpec where
  path : Nat
  creates_file : Bool
  save_ok : Bool
  timed_out : Bool
  post_exc : Bool
  remove_ok : Bool
deriving DecidableEq, Repr

/-- The value a job contributes to asyncio.gather: the downloaded path if the
file was created and fully saved (download_file returns the path only then),
the download finished within its timeout and post-processing raised nothing;
otherwise None (timeouts are swallowed by download_file_with_timeout,
exceptions by the except-branch of process_file_in_batch, and any
download_file failure — a failed save included — is already a None). -/
def job_result (s : JobSpec) : Option Nat :=
  if s.creates_file && s.save_ok && !s.timed_out && !s.post_exc then some s.path
  else none

/-- The file a job leaves in the staging directory right after it settles:
any job whose thread reached the save step has a file at its path — a fully
saved one, or the partial file open(file_path, "wb") created before a failed
write — even when the logical timeout already fired (asyncio.wait_for
abandons the thread without cancelling it and the late result is not
discarded).  Only the except-branch of process_file_in_batch removes the file
itself, after a post-download exception on an in-time successful download,
and only when its os.remove succeeds (an OSError is caught and logged). -/
def job_staged (s : JobSpec) : Option Nat :=
  if !s.creates_file then none
  else if !s.timed_out && s.save_ok && s.post_exc && s.remove_ok then none
  else some s.path

/-- The file the batch cleanup removes for this job: cleanup_temp_files
iterates exactly batch_downloaded_files — the collected successful results —
and its os.remove failures are caught and swallowed, leaving the file. -/
def cleanup_removed (s : JobSpec) : Option Nat :=
  if (job_result s).isSome && s.remove_ok then some s.path else none

/-- One batch iteration of process_batches: gather the job results
(process_batch_results keeps the valid pairs as batch_downloaded_files), add
the files the jobs wrote to the staging directory, and let
cleanup_temp_files remove those collected files whose removal succeeds.  The
Bool records whether the batch contributes a fragment to the final report:
lines 556-578 append one entry when a report task was created — which
create_report_task does exactly when at least one analysis task exists — and
nothing at all otherwise (the explicit else-comment of line 578). -/
def run_batch (staged : Finset Nat) (batch : List JobSpec) :
    Bool × Finset Nat :=
  let batch_downloaded_files := batch.filterMap job_result
  let staged1 := staged ∪ (batch.filterMap job_staged).toFinset
  let staged2 := staged1 \ (batch.filterMap cleanup_removed).toFinset
  (!batch_downloaded_files.isEmpty, staged2)

/-- Folding step of the batch loop: count the appended fragment and thread
the staging directory. -/
def batch_step (acc : Nat × Finset Nat) (batch : List JobSpec) :
    Nat × Finset Nat :=
  let r := run_batch acc.2 batch
  (acc.1 + if r.1 then 1 else 0, r.2)

/-- process_batches: slice the file list into batches, run them in order, and
return how many fragments reached all_final_reports_content together with the
files left in the staging directory after the last cleanup. -/
def process_batches (files : List JobSpec) (batch_size : Nat) :
    Nat × Finset Nat :=
  (file_batches files batch_size).foldl batch_step (0, ∅)

/-- The paths of jobs that can leave a file behind: the thread created the
file and either the job timed out (the late result is never recorded or
cleaned), or the save failed (the partial file sits behind a None return and
is in no cleanup list), or the removal attempt failed (errors swallowed). -/
def leak_paths (files : List JobSpec) : Finset Nat :=
  (files.filterMap (fun s =>
    if s.creates_file && (s.timed_out || !s.save_ok || !s.remove_ok) then
      some s.path
    else none)).toFinset

/-! ### Theorems -/

theorem truncation_warning_length : truncation_warning.length = 60 := by decide

/-- C9 counterexample: with a character budget smaller than the truncation
marker, the marker itself overflows the budget.  For budget 1 and input "ab"
the second slice bound of the source, 1 - 60 - 1, is negative, Python slicing
empties the content, and the appended 60-character marker makes the result 60
characters long, far above the budget of 1.  This refutes the claim that the
returned content always has length at most max_chars. -/
theorem C9_truncation_counterexample :
    (extract_and_truncate_content_simple "ab".data 1).length = 60 ∧
    ¬ (extract_and_truncate_content_simple "ab".data 1).length ≤ 1 := by
  constructor <;> decide

/-- C9 (amended): whenever the character budget exceeds the length of the
truncation marker — in particular at the only budget the source ever uses,
the default of 100000 — the returned content has length at most max_chars,
oversized input yields content ending in the visible marker, and input within
the budget is returned unchanged. -/
theorem C9_truncation_bound (content : List Char) (max_chars : Nat)
    (hm : truncation_warning.length + 1 ≤ max_chars) :
    (extract_and_truncate_content_simple content max_chars).length ≤ max_chars ∧
    (content.length ≤ max_chars →
      extract_and_truncate_content_simple content max_chars = content) ∧
    (max_chars < content.length →
      ∃ pre, extract_and_truncate_content_simple content max_chars =
        pre ++ truncation_warning) := by
  rw [truncation_warning_length] at hm
  by_cases h : max_chars < content.length
  · have h1 : (content.take max_chars).length = max_chars := by
      simp [List.length_take]; omega
    have hcond : max_chars <
        (content.take max_chars).length + truncation_warning.length := by
      rw [h1, truncation_warning_length]; omega
    have hstop : ((max_chars : Int) - truncation_warning.length - 1) =
        ((max_chars - 61 : Nat) : Int) := by
      rw [truncation_warning_length]; omega
    have hslice :
        pySliceTo (content.take max_chars)
          ((max_chars : Int) - truncation_warning.length - 1) =
        (content.take max_chars).take (max_chars - 61) := by
      rw [pySliceTo, hstop]
      rw [if_pos (by omega)]
      simp
    have hres : extract_and_truncate_content_simple content max_chars =
        (content.take max_chars).take (max_chars - 61) ++ truncation_warning := by
      rw [extract_and_truncate_content_simple, if_pos h]
      show (if max_chars <
              (content.take max_chars).length + truncation_warning.length then
            pySliceTo (content.take max_chars)
              ((max_chars : Int) - truncation_warning.length - 1)
          else content.take max_chars) ++ truncation_warning = _
      rw [if_pos hcond, hslice]
    refine ⟨?_, fun hle => absurd h (not_lt.mpr hle), fun _ => ⟨_, hres⟩⟩
    rw [hres]
    simp only [List.length_append, List.length_take, truncation_warning_length]
    omega
  · rw [extract_and_truncate_content_simple, if_neg h]
    exact ⟨not_lt.mp h, fun _ => rfl, fun hlt => absurd hlt h⟩

/-- Witness for C9 at a concrete oversized input under the default-sized
budget regime. -/
theorem C9_truncation_bound_witness :
    (truncation_warning.length + 1 ≤ 100 ∧
      (extract_and_truncate_content_simple (List.replicate 101 'a') 100).length ≤ 100) ∧
    (extract_and_truncate_content_simple (List.replicate 50 'b') 100 =
      List.replicate 50 'b') :=
  ⟨⟨by decide,
      (C9_truncation_bound (List.replicate 101 'a') 100 (by decide)).1⟩,
    (C9_truncation_bound (List.replicate 50 'b') 100 (by decide)).2.1 (by decide)⟩

theorem retry_go_const_ok {α : Type} (body : Nat → Except DriveExc α) (v : α)
    (h : ∀ a, body a = .ok v) (attempt remaining : Nat) :
    retry_go body attempt remaining = (.ok v, attempt) := by
  rw [retry_go, h attempt]

theorem retry_go_const_error_retryable {α : Type} (body : Nat → Except DriveExc α)
    (e : DriveExc) (h : ∀ a, body a = .error e) (he : tenacity_retry_on e = true) :
    ∀ remaining attempt, 1 ≤ remaining →
      retry_go body attempt remaining = (.error e, attempt + remaining - 1) := by
  intro remaining
  induction remaining with
  | zero => intro attempt h1; omega
  | succ r ih =>
    intro attempt _
    rw [retry_go, h attempt]
    show (if _h : tenacity_retry_on e = true ∧ 1 < r + 1 then
            retry_go body (attempt + 1) (r + 1 - 1)
          else (Except.error e, attempt)) = (Except.error e, attempt + (r + 1) - 1)
    by_cases hr : 1 < r + 1
    · rw [dif_pos ⟨he, hr⟩, show r + 1 - 1 = r from rfl, ih (attempt + 1) (by omega)]
      have harith : attempt + 1 + r - 1 = attempt + (r + 1) - 1 := by omega
      rw [harith]
    · have hr0 : r = 0 := by omega
      subst hr0
      rw [dif_neg (by simp)]
      rfl

theorem retry_go_const_error_permanent {α : Type} (body : Nat → Except DriveExc α)
    (e : DriveExc) (h : ∀ a, body a = .error e) (he : tenacity_retry_on e = false)
    (attempt remaining : Nat) :
    retry_go body attempt remaining = (.error e, attempt) := by
  rw [retry_go, h attempt]
  show (if _h : tenacity_retry_on e = true ∧ 1 < remaining then
          retry_go body (attempt + 1) (remaining - 1)
        else (Except.error e, attempt)) = (Except.error e, attempt)
  rw [dif_neg (by simp [he])]

/-- C2 counterexample: a Permanent HTTP 404 on every stream-open attempt does
not fail after one attempt; because the stream-open retry predicate looks only
at the exception type, the 404 is retried and consumes the full budget of 2
attempts. -/
theorem C2_retry_counterexample :
    is_retryable_http_error (.http 404) = false ∧
    (download_or_export_file_attempt (fun _ => some (.http 404))).2 = 2 ∧
    (download_or_export_file_attempt (fun _ => some (.http 404))).2 ≠ 1 := by
  have h := retry_go_const_error_retryable
    (download_or_export_body (fun _ => some (.http 404))) (.http 404)
    (fun _ => rfl) rfl 2 1 (by omega)
  rw [download_or_export_file_attempt, run_with_retry, h]
  exact ⟨by decide, rfl, by decide⟩

/-- C2 (amended): the metadata fetch fails after exactly one attempt on a
Permanent HTTP error (it returns None without retrying) and exhausts exactly
3 attempts on a Transient error occurring every time; the stream-open call
retries any HttpError regardless of status, so both a Transient and a
Permanent HTTP error occurring on every attempt consume exactly its full
budget of 2 attempts before the exception surfaces. -/
theorem C2_retry_bounds (s t : Nat)
    (raw_perm_m raw_trans_m : Nat → MetaRaw)
    (raw_perm_s raw_trans_s : Nat → Option DriveExc)
    (hs : is_retryable_http_error (.http s) = false)
    (ht : is_retryable_http_error (.http t) = true)
    (h1 : ∀ a, raw_perm_m a = .exc (.http s))
    (h2 : ∀ a, raw_trans_m a = .exc (.http t))
    (h3 : ∀ a, raw_perm_s a = some (.http s))
    (h4 : ∀ a, raw_trans_s a = some (.http t)) :
    get_file_metadata raw_perm_m = (.ok none, 1) ∧
    get_file_metadata raw_trans_m = (.error (.http t), 3) ∧
    download_or_export_file_attempt raw_trans_s = (.error (.http t), 2) ∧
    download_or_export_file_attempt raw_perm_s = (.error (.http s), 2) := by
  refine ⟨?_, ?_, ?_, ?_⟩
  · rw [get_file_metadata, run_with_retry]
    exact retry_go_const_ok _ none
      (fun a => by rw [get_file_metadata_body, h1 a]; simp [hs]) 1 3
  · rw [get_file_metadata, run_with_retry]
    exact retry_go_const_error_retryable _ (.http t)
      (fun a => by rw [get_file_metadata_body, h2 a]; simp [ht]) rfl 3 1 (by omega)
  · rw [download_or_export_file_attempt, run_with_retry]
    exact retry_go_const_error_retryable _ (.http t)
      (fun a => by rw [download_or_export_body, h4 a]) rfl 2 1 (by omega)
  · rw [download_or_export_file_attempt, run_with_retry]
    exact retry_go_const_error_retryable _ (.http s)
      (fun a => by rw [download_or_export_body, h3 a]) rfl 2 1 (by omega)

/-- Witness for C2 at the concrete statuses 404 (Permanent) and 500
(Transient) with constantly failing oracles. -/
theorem C2_retry_bounds_witness :
    get_file_metadata (fun _ => .exc (.http 404)) = (.ok none, 1) ∧
    get_file_metadata (fun _ => .exc (.http 500)) = (.error (.http 500), 3) ∧
    download_or_export_file_attempt (fun _ => some (.http 500)) =
      (.error (.http 500), 2) ∧
    download_or_export_file_attempt (fun _ => some (.http 404)) =
      (.error (.http 404), 2) :=
  C2_retry_bounds 404 500 _ _ _ _ (by decide) (by decide)
    (fun _ => rfl) (fun _ => rfl) (fun _ => rfl) (fun _ => rfl)

theorem file_batches_nil (k : Nat) : file_batches ([] : List α) k = [] := by
  cases k <;> simp [file_batches]

theorem file_batches_zero (l : List α) : file_batches l 0 = [] := by
  cases l <;> simp [file_batches]

theorem file_batches_cons (l : List α) (k : Nat) (hk : k ≠ 0) (hl : l ≠ []) :
    file_batches l k = l.take k :: file_batches (l.drop k) k := by
  obtain ⟨m, rfl⟩ := Nat.exists_eq_succ_of_ne_zero hk
  obtain ⟨x, xs, rfl⟩ := List.exists_cons_of_ne_nil hl
  rw [file_batches]

theorem file_batches_join_aux (k : Nat) (hk : k ≠ 0) :
    ∀ (n : Nat) (l : List α), l.length ≤ n → (file_batches l k).flatten = l := by
  intro n
  induction n with
  | zero =>
    intro l hl
    have : l = [] := List.eq_nil_of_length_eq_zero (Nat.le_zero.mp hl)
    subst this
    simp [file_batches_nil]
  | succ n ih =>
    intro l hl
    by_cases hnil : l = []
    · subst hnil; simp [file_batches_nil]
    · rw [file_batches_cons l k hk hnil]
      have hlen : (l.drop k).length ≤ n := by
        have h1 : 0 < l.length := List.length_pos.mpr hnil
        have h2 : 0 < k := Nat.pos_of_ne_zero hk
        simp only [List.length_drop]
        omega
      simp only [List.flatten_cons, ih (l.drop k) hlen, List.take_append_drop]

/-- Concatenating the batches gives back the input list. -/
theorem file_batches_join (l : List α) (k : Nat) (hk : k ≠ 0) :
    (file_batches l k).flatten = l :=
  file_batches_join_aux k hk l.length l (le_refl _)

theorem file_batches_sizes_aux (k : Nat) (hk : k ≠ 0) :
    ∀ (n : Nat) (l : List α), l.length ≤ n →
      (∀ b ∈ file_batches l k, b.length ≤ k ∧ b ≠ []) ∧
      (∀ b ∈ (file_batches l k).dropLast, b.length = k) := by
  intro n
  induction n with
  | zero =>
    intro l hl
    have : l = [] := List.eq_nil_of_length_eq_zero (Nat.le_zero.mp hl)
    subst this
    simp [file_batches_nil]
  | succ n ih =>
    intro l hl
    by_cases hnil : l = []
    · subst hnil; simp [file_batches_nil]
    · have hlen : (l.drop k).length ≤ n := by
        have h1 : 0 < l.length := List.length_pos.mpr hnil
        have h2 : 0 < k := Nat.pos_of_ne_zero hk
        simp only [List.length_drop]; omega
      obtain ⟨ihAll, ihLast⟩ := ih (l.drop k) hlen
      rw [file_batches_cons l k hk hnil]
      constructor
      · intro b hb
        rcases List.mem_cons.mp hb with hb | hb
        · subst hb
          refine ⟨by simp [List.length_take], ?_⟩
          simp only [ne_eq, List.take_eq_nil_iff]
          push_neg
          exact ⟨hk, hnil⟩
        · exact ihAll b hb
      · intro b hb
        rcases hrest : file_batches (l.drop k) k with _ | ⟨r, rs⟩
        · rw [hrest] at hb; simp at hb
        · rw [hrest] at hb
          have : (l.take k :: r :: rs).dropLast = l.take k :: (r :: rs).dropLast := rfl
          rw [this] at hb
          rcases List.mem_cons.mp hb with hb | hb
          · subst hb
            have hdrop : l.drop k ≠ [] := by
              intro hd
              rw [hd, file_batches_nil] at hrest
              exact List.cons_ne_nil r rs hrest.symm
            have : k < l.length := by
              by_contra hge
              exact hdrop (List.drop_eq_nil_of_le (Nat.le_of_not_lt hge))
            simp [List.length_take]
            omega
          · rw [← hrest] at hb
            exact ihLast b hb

/-- C8: for every object list and positive batch size, the orchestrator
partitions the list into ordered non-overlapping batches whose concatenation
is the input list, each batch of the full batch size except possibly the
last, which is nonempty and holds the remainder. -/
theorem C8_batch_partition (l : List α) (k : Nat) (hk : 0 < k) :
    (file_batches l k).flatten = l ∧
    (∀ b ∈ (file_batches l k).dropLast, b.length = k) ∧
    (∀ b ∈ file_batches l k, b.length ≤ k ∧ b ≠ []) := by
  obtain ⟨hAll, hLast⟩ :=
    file_batches_sizes_aux k (Nat.pos_iff_ne_zero.mp hk) l.length l (le_refl _)
  exact ⟨file_batches_join l k (Nat.pos_iff_ne_zero.mp hk), hLast, hAll⟩

/-- Witness for C8 at the scenario of the specification: 7 objects with batch
size 3 give batches of sizes 3, 3, 1. -/
theorem C8_batch_partition_witness :
    (0 < 3 ∧ (file_batches [0, 1, 2, 3, 4, 5, 6] 3).flatten = [0, 1, 2, 3, 4, 5, 6]) ∧
    (file_batches [0, 1, 2, 3, 4, 5, 6] 3).map List.length = [3, 3, 1] :=
  ⟨⟨by decide, (C8_batch_partition [0, 1, 2, 3, 4, 5, 6] 3 (by decide)).1⟩,
    by simp [file_batches]⟩

/-- C10: download_file is total at its public interface: for every oracle it
returns either None or the joined destination path of the saved file, and it
returns a path exactly when the metadata fetch eventually succeeded with
metadata, the destination directory could be created, the retried stream-open
succeeded, the chunk loop succeeded and the save succeeded — every failure of
any stage is converted into a None return. -/
theorem C10_download_file_total (o : DLOracle) (dest : List Char) :
    (download_file o dest = none ∨
      ∃ nm, download_file o dest = some (dest ++ '/' :: nm)) ∧
    ((∃ p, download_file o dest = some p) ↔
      (∃ md, (get_file_metadata o.meta).1 = .ok (some md)) ∧
        o.ensure_dir = true ∧
        (∃ u, (download_or_export_file_attempt o.stream).1 = .ok u) ∧
        o.chunks_ok = true ∧ o.save_ok = true) := by
  rcases hm : (get_file_metadata o.meta).1 with e | mo
  · have hd : download_file o dest = none := by
      rw [download_file, prepare_file_download, hm]
    refine ⟨Or.inl hd, ?_⟩
    simp [hd, hm]
  · cases mo with
    | none =>
      have hd : download_file o dest = none := by
        rw [download_file, prepare_file_download, hm]
      refine ⟨Or.inl hd, ?_⟩
      simp [hd, hm]
    | some md =>
      have hp : prepare_file_download o.meta =
          some (google_docs_export_mimetypes md.mimeType,
            prepare_final_name md.name md.mimeType) := by
        rw [prepare_file_download, hm]
      cases he : o.ensure_dir with
      | false =>
        have hd : download_file o dest = none := by
          rw [download_file, hp]
          simp [he]
        refine ⟨Or.inl hd, ?_⟩
        simp [hd, he]
      | true =>
        rcases hs : (download_or_export_file_attempt o.stream).1 with e | u
        · have hd : download_file o dest = none := by
            rw [download_file, hp]
            simp [he, hs]
          refine ⟨Or.inl hd, ?_⟩
          simp [hd, hs]
        · cases hc : o.chunks_ok with
          | false =>
            have hd : download_file o dest = none := by
              rw [download_file, hp]
              simp [he, hs, hc]
            refine ⟨Or.inl hd, ?_⟩
            simp [hd, hc]
          | true =>
            cases hv : o.save_ok with
            | false =>
              have hd : download_file o dest = none := by
                rw [download_file, hp]
                simp [he, hs, hc, hv]
              refine ⟨Or.inl hd, ?_⟩
              simp [hd, hv]
            | true =>
              have hd : download_file o dest =
                  some (dest ++ '/' :: prepare_final_name md.name md.mimeType) := by
                rw [download_file, hp]
                simp [he, hs, hc, hv]
              refine ⟨Or.inr ⟨_, hd⟩, ?_⟩
              constructor
              · intro _
                exact ⟨⟨md, rfl⟩, rfl, ⟨u, rfl⟩, rfl, rfl⟩
              · intro _
                exact ⟨_, hd⟩

/-- C4 counterexample: two runs over the same fragment list at different run
timestamps produce artifacts with the SAME filename (the name carries no
timestamp, so the second write overwrites the first) and DIFFERENT contents
(the generation timestamp is embedded in the content).  This refutes both
halves of the claim: the artifact is not named with a run timestamp, and the
content is not a pure function of the input fragments. -/
theorem C4_consolidation_counterexample :
    (save_final_report ["frag"]
        ⟨"20240101_000000", "2024-01-01 00:00:00", true, true⟩).map Prod.fst =
      (save_final_report ["frag"]
        ⟨"20250202_111111", "2025-02-02 11:11:11", true, true⟩).map Prod.fst ∧
    (save_final_report ["frag"]
        ⟨"20240101_000000", "2024-01-01 00:00:00", true, true⟩).map Prod.snd ≠
      (save_final_report ["frag"]
        ⟨"20250202_111111", "2025-02-02 11:11:11", true, true⟩).map Prod.snd := by
  constructor <;> decide

/-- C4 (amended): for a nonempty fragment list and successful directory
creation and write, every call produces the artifact with the fixed filename
FINAL_consolidated_drive_report.md (so calling twice overwrites rather than
producing two timestamped artifacts), and its content is the title header, a
line embedding the generation timestamp, and the separator-joined fragments —
a pure function of the fragments except for that embedded timestamp line. -/
theorem C4_consolidation (fragments : List String) (env env' : ReportEnv)
    (hne : fragments ≠ []) (h1 : env.dir_ok = true) (h2 : env.write_ok = true)
    (h3 : env'.dir_ok = true) (h4 : env'.write_ok = true) :
    save_final_report fragments env =
      some (final_report_filename,
        report_title ++ "*Gerado em: " ++ env.now_gen_ts ++ "*\n\n" ++
          report_separator.intercalate fragments) ∧
    save_final_report fragments env' =
      some (final_report_filename,
        report_title ++ "*Gerado em: " ++ env'.now_gen_ts ++ "*\n\n" ++
          report_separator.intercalate fragments) := by
  obtain ⟨x, xs, rfl⟩ := List.exists_cons_of_ne_nil hne
  constructor <;> simp [save_final_report, h1, h2, h3, h4]

/-- Witness for C4 at a concrete fragment list and two concrete runs. -/
theorem C4_consolidation_witness :
    save_final_report ["frag"] ⟨"t1", "g1", true, true⟩ =
      some (final_report_filename,
        report_title ++ "*Gerado em: " ++ "g1" ++ "*\n\n" ++
          report_separator.intercalate ["frag"]) :=
  (C4_consolidation ["frag"] ⟨"t1", "g1", true, true⟩ ⟨"t2", "g2", true, true⟩
    (by decide) rfl rfl rfl rfl).1

theorem job_staged_some {s : JobSpec} {x : Nat} (h : job_staged s = some x) :
    cleanup_removed s = some x ∨
      ((s.creates_file && (s.timed_out || !s.save_ok || !s.remove_ok)) = true ∧
        x = s.path) := by
  obtain ⟨p, cf, so, tdo, pe, ro⟩ := s
  cases cf <;> cases so <;> cases tdo <;> cases pe <;> cases ro <;>
    simp_all [job_staged, job_result, cleanup_removed]

theorem run_batch_staged_subset (st : Finset Nat) (b : List JobSpec) :
    (run_batch st b).2 ⊆ st ∪ leak_paths b := by
  intro x hx
  have hx' : x ∈ (st ∪ (b.filterMap job_staged).toFinset) \
      (b.filterMap cleanup_removed).toFinset := hx
  rw [Finset.mem_sdiff, Finset.mem_union] at hx'
  obtain ⟨hin, hnot⟩ := hx'
  rcases hin with h | h
  · exact Finset.mem_union_left _ h
  · rw [List.mem_toFinset, List.mem_filterMap] at h
    obtain ⟨s, hs, hstaged⟩ := h
    rcases job_staged_some hstaged with hrem | ⟨hleak, rfl⟩
    · exact absurd (List.mem_toFinset.mpr (List.mem_filterMap.mpr ⟨s, hs, hrem⟩)) hnot
    · refine Finset.mem_union_right _ ?_
      rw [leak_paths, List.mem_toFinset, List.mem_filterMap]
      exact ⟨s, hs, by rw [if_pos hleak]⟩

theorem leak_paths_append (l₁ l₂ : List JobSpec) :
    leak_paths (l₁ ++ l₂) = leak_paths l₁ ∪ leak_paths l₂ := by
  rw [leak_paths, leak_paths, leak_paths, List.filterMap_append,
    List.toFinset_append]

theorem batch_fold_staged_subset (bs : List (List JobSpec)) :
    ∀ (p : Nat × Finset Nat),
      (bs.foldl batch_step p).2 ⊆ p.2 ∪ leak_paths bs.flatten := by
  induction bs with
  | nil =>
    intro p
    simp [leak_paths]
  | cons b bs ih =>
    intro p
    rw [List.foldl_cons]
    refine (ih (batch_step p b)).trans ?_
    have h1 : (batch_step p b).2 ⊆ p.2 ∪ leak_paths b :=
      run_batch_staged_subset p.2 b
    rw [List.flatten_cons, leak_paths_append]
    intro x hx
    rw [Finset.mem_union] at hx ⊢
    rcases hx with hx | hx
    · rcases Finset.mem_union.mp (h1 hx) with h | h
      · exact Or.inl h
      · exact Or.inr (Finset.mem_union_left _ h)
    · exact Or.inr (Finset.mem_union_right _ hx)

theorem batch_fold_count (bs : List (List JobSpec)) :
    ∀ (p : Nat × Finset Nat),
      (bs.foldl batch_step p).1 =
        p.1 + bs.countP (fun b => !(b.filterMap job_result).isEmpty) := by
  induction bs with
  | nil =>
    intro p
    simp
  | cons b bs ih =>
    intro p
    rw [List.foldl_cons, ih, List.countP_cons]
    show (p.1 + if (run_batch p.2 b).1 then 1 else 0) + _ = _
    by_cases hb : (b.filterMap job_result).isEmpty
    · simp only [run_batch, hb]
      simp
    · simp only [run_batch, Bool.not_eq_true] at hb ⊢
      simp [hb]
      omega

/-- C1 counterexample: a run with one batch whose single job fails produces
zero report fragments while there is one batch; the fragment count does not
equal the batch count because a zero-success batch appends nothing to
all_final_reports_content (the explicit final else of lines 573-578 adds no
placeholder). -/
theorem C1_fragment_counterexample :
    (process_batches [⟨0, false, false, false, false, true⟩] 1).1 = 0 ∧
    (file_batches ([⟨0, false, false, false, false, true⟩] : List JobSpec)
      1).length = 1 ∧
    (process_batches [⟨0, false, false, false, false, true⟩] 1).1 ≠
      (file_batches ([⟨0, false, false, false, false, true⟩] : List JobSpec)
        1).length := by
  refine ⟨?_, ?_, ?_⟩ <;>
    simp [process_batches, file_batches, batch_step, run_batch, job_result]

/-- C1 (amended): a batch contributes exactly one fragment to the final
report when at least one of its jobs yields a valid analysis task, and
nothing at all otherwise; hence the number of report fragments equals the
number of batches with at least one successful job, which is at most — and
not in general equal to — the number of batches. -/
theorem C1_fragments_per_batch (files : List JobSpec) (k : Nat) :
    (process_batches files k).1 =
      (file_batches files k).countP
        (fun b => !(b.filterMap job_result).isEmpty) ∧
    (process_batches files k).1 ≤ (file_batches files k).length := by
  have h := batch_fold_count (file_batches files k) (0, ∅)
  have h2 : (process_batches files k).1 =
      (file_batches files k).countP
        (fun b => !(b.filterMap job_result).isEmpty) := by
    simpa [process_batches] using h
  exact ⟨h2, h2 ▸ List.countP_le_length _⟩

/-- C3 counterexample: a job whose _save_file reaches open(file_path, "wb")
but whose write then fails leaves a partial file: download_file returns None,
the path never enters batch_downloaded_files and no handler removes it, so
the file survives process_batches although the job neither succeeded nor
timed out.  A timed-out job whose abandoned download thread completes late
leaks the same way. -/
theorem C3_cleanup_counterexample :
    (process_batches [⟨5, true, false, false, false, true⟩,
        ⟨6, true, true, true, false, true⟩] 2).2 = {5, 6} ∧
    (process_batches [⟨5, true, false, false, false, true⟩,
        ⟨6, true, true, true, false, true⟩] 2).2 ≠ ∅ := by
  have h : (process_batches [⟨5, true, false, false, false, true⟩,
      ⟨6, true, true, true, false, true⟩] 2).2 = {5, 6} := by
    simp [process_batches, file_batches, batch_step, run_batch, job_result,
      job_staged, cleanup_removed]
  refine ⟨h, ?_⟩
  rw [h]
  decide

/-- C3 (amended): after process_batches returns, every file left in the
staging directory comes from a job that created its file and then either
timed out (the late write of the abandoned thread is never recorded nor
cleaned), or failed the save (the partial file sits behind a None return and
is in no cleanup list), or had its os.remove fail (removal errors are
swallowed by the per-job handler and by cleanup_temp_files); in particular,
when every created file is saved within its timeout and every removal
succeeds, no staged file remains. -/
theorem C3_cleanup (files : List JobSpec) (k : Nat) :
    (process_batches files k).2 ⊆ leak_paths files ∧
    ((∀ s ∈ files, s.creates_file = true →
        s.timed_out = false ∧ s.save_ok = true ∧ s.remove_ok = true) →
      (process_batches files k).2 = ∅) := by
  have hsub0 : (process_batches files k).2 ⊆
      leak_paths (file_batches files k).flatten := by
    simpa [process_batches] using
      batch_fold_staged_subset (file_batches files k) (0, ∅)
  have hsub : (process_batches files k).2 ⊆ leak_paths files := by
    by_cases hk : k = 0
    · subst hk
      have hz : process_batches files 0 = (0, ∅) := by
        rw [process_batches, file_batches_zero]
        rfl
      rw [hz]
      exact Finset.empty_subset _
    · rwa [file_batches_join files k hk] at hsub0
  refine ⟨hsub, fun h => ?_⟩
  have hnilleak : files.filterMap
      (fun s =>
        if s.creates_file && (s.timed_out || !s.save_ok || !s.remove_ok) then
          some s.path
        else none) = [] := by
    rw [List.filterMap_eq_nil_iff]
    intro s hs
    cases hcf : s.creates_file
    · simp [hcf]
    · obtain ⟨h1, h2, h3⟩ := h s hs hcf
      simp [hcf, h1, h2, h3]
  have hempty : leak_paths files = ∅ := by
    rw [leak_paths, hnilleak]
    rfl
  exact Finset.subset_empty.mp (hempty ▸ hsub)

/-- Witness for C3 at a concrete run: one fully successful job whose removal
succeeds and one early-failing job that never created a file leave a clean
staging directory. -/
theorem C3_cleanup_witness :
    (process_batches [⟨5, true, true, false, false, true⟩,
        ⟨7, false, false, false, false, true⟩] 2).2 = ∅ :=
  (C3_cleanup [⟨5, true, true, false, false, true⟩,
    ⟨7, false, false, false, false, true⟩] 2).2 (by decide)

theorem walkF_zero (g : DriveGraph) (vis : Finset Nat) (fid : Nat) :
    walkF g 0 vis fid = ([], vis) := by
  simp [walkF]

theorem walkF_succ_visited (g : DriveGraph) {vis : Finset Nat} {fid : Nat}
    (n : Nat) (hv : fid ∈ vis) : walkF g (n + 1) vis fid = ([], vis) := by
  rw [walkF, if_pos hv]

theorem walkF_succ_new (g : DriveGraph) {vis : Finset Nat} {fid : Nat}
    (n : Nat) (hv : fid ∉ vis) :
    walkF g (n + 1) vis fid =
      pagesF g n (children_pages g fid) (insert fid vis) := by
  rw [walkF, if_neg hv]

theorem pagesF_nil (g : DriveGraph) (n : Nat) (vis : Finset Nat) :
    pagesF g n [] vis = ([], vis) := by
  simp [pagesF]

theorem pagesF_cons (g : DriveGraph) (n : Nat) (page : List DriveItem)
    (rest : List (List DriveItem)) (vis : Finset Nat) :
    pagesF g n (page :: rest) vis =
      ((scanF g n page vis).1 ++ (pagesF g n rest (scanF g n page vis).2).1,
        (pagesF g n rest (scanF g n page vis).2).2) := by
  rw [pagesF]

theorem scanF_nil (g : DriveGraph) (n : Nat) (vis : Finset Nat) :
    scanF g n [] vis = ([], vis) := by
  simp [scanF]

theorem scanF_cons_file (g : DriveGraph) (n : Nat) {item : DriveItem}
    (rest : List DriveItem) (vis : Finset Nat) (hf : item.isFolder = false) :
    scanF g n (item :: rest) vis =
      (item.id :: (scanF g n rest vis).1, (scanF g n rest vis).2) := by
  rw [scanF, if_neg (by simp [hf])]

theorem scanF_cons_folder_visited (g : DriveGraph) (n : Nat) {item : DriveItem}
    (rest : List DriveItem) {vis : Finset Nat} (hf : item.isFolder = true)
    (hv : item.id ∈ vis) :
    scanF g n (item :: rest) vis = scanF g n rest vis := by
  rw [scanF, if_pos hf, if_pos hv]

theorem scanF_cons_folder_new (g : DriveGraph) (n : Nat) {item : DriveItem}
    (rest : List DriveItem) {vis : Finset Nat} (hf : item.isFolder = true)
    (hv : item.id ∉ vis) :
    scanF g n (item :: rest) vis =
      ((walkF g n vis item.id).1 ++
          (scanF g n rest (walkF g n vis item.id).2).1,
        (scanF g n rest (walkF g n vis item.id).2).2) := by
  rw [scanF, if_pos hf, if_neg hv]

theorem children_pages_not_key (g : DriveGraph) (fid : Nat)
    (h : fid ∉ folder_keys g) : children_pages g fid = [] := by
  rw [children_pages]
  have hfind : g.find? (fun e => e.1 == fid) = none := by
    rw [List.find?_eq_none]
    intro e he hbe
    apply h
    rw [folder_keys, List.mem_toFinset, List.mem_map]
    exact ⟨e, he, by simpa using hbe⟩
  rw [hfind]

theorem scanF_vis_mono_of (g : DriveGraph) (n : Nat)
    (hw : ∀ vis fid, vis ⊆ (walkF g n vis fid).2) :
    ∀ (items : List DriveItem) (vis : Finset Nat),
      vis ⊆ (scanF g n items vis).2 := by
  intro items
  induction items with
  | nil =>
    intro vis
    rw [scanF_nil]
  | cons item rest ih =>
    intro vis
    by_cases hf : item.isFolder = true
    · by_cases hv : item.id ∈ vis
      · rw [scanF_cons_folder_visited g n rest hf hv]
        exact ih vis
      · rw [scanF_cons_folder_new g n rest hf hv]
        exact (hw vis item.id).trans (ih _)
    · rw [scanF_cons_file g n rest vis (by simpa using hf)]
      exact ih vis

theorem pagesF_vis_mono_of (g : DriveGraph) (n : Nat)
    (hs : ∀ items vis, vis ⊆ (scanF g n items vis).2) :
    ∀ (pages : List (List DriveItem)) (vis : Finset Nat),
      vis ⊆ (pagesF g n pages vis).2 := by
  intro pages
  induction pages with
  | nil =>
    intro vis
    rw [pagesF_nil]
  | cons page rest ih =>
    intro vis
    rw [pagesF_cons]
    exact (hs page vis).trans (ih _)

theorem walkF_vis_mono (g : DriveGraph) :
    ∀ (n : Nat) (vis : Finset Nat) (fid : Nat), vis ⊆ (walkF g n vis fid).2 := by
  intro n
  induction n with
  | zero =>
    intro vis fid
    rw [walkF_zero]
  | succ n ih =>
    intro vis fid
    by_cases hv : fid ∈ vis
    · rw [walkF_succ_visited g n hv]
    · rw [walkF_succ_new g n hv]
      exact (Finset.subset_insert fid vis).trans
        (pagesF_vis_mono_of g n (scanF_vis_mono_of g n ih) _ _)

theorem scanF_vis_mono (g : DriveGraph) (n : Nat) (items : List DriveItem)
    (vis : Finset Nat) : vis ⊆ (scanF g n items vis).2 :=
  scanF_vis_mono_of g n (walkF_vis_mono g n) items vis

theorem pagesF_vis_mono (g : DriveGraph) (n : Nat)
    (pages : List (List DriveItem)) (vis : Finset Nat) :
    vis ⊆ (pagesF g n pages vis).2 :=
  pagesF_vis_mono_of g n (fun items vis => scanF_vis_mono g n items vis) pages vis

theorem unvisited_card_anti (g : DriveGraph) {vis vis' : Finset Nat}
    (h : vis ⊆ vis') :
    (folder_keys g \ vis').card ≤ (folder_keys g \ vis).card :=
  Finset.card_le_card (Finset.sdiff_subset_sdiff (Finset.Subset.refl _) h)

theorem scanF_fuel_of (g : DriveGraph) (n : Nat)
    (hw : ∀ vis fid, (folder_keys g \ vis).card + 1 ≤ n →
      walkF g n vis fid = walkF g (n + 1) vis fid) :
    ∀ (items : List DriveItem) (vis : Finset Nat),
      (folder_keys g \ vis).card + 1 ≤ n →
        scanF g n items vis = scanF g (n + 1) items vis := by
  intro items
  induction items with
  | nil =>
    intro vis _
    rw [scanF_nil, scanF_nil]
  | cons item rest ih =>
    intro vis hb
    by_cases hf : item.isFolder = true
    · by_cases hv : item.id ∈ vis
      · rw [scanF_cons_folder_visited g n rest hf hv,
          scanF_cons_folder_visited g (n + 1) rest hf hv, ih vis hb]
      · rw [scanF_cons_folder_new g n rest hf hv,
          scanF_cons_folder_new g (n + 1) rest hf hv, ← hw vis item.id hb]
        have hb' : (folder_keys g \ (walkF g n vis item.id).2).card + 1 ≤ n := by
          have := unvisited_card_anti g (walkF_vis_mono g n vis item.id)
          omega
        rw [← ih _ hb']
    · have hf' : item.isFolder = false := by simpa using hf
      rw [scanF_cons_file g n rest vis hf', scanF_cons_file g (n + 1) rest vis hf',
        ih vis hb]

theorem pagesF_fuel_of (g : DriveGraph) (n : Nat)
    (hs : ∀ items vis, (folder_keys g \ vis).card + 1 ≤ n →
      scanF g n items vis = scanF g (n + 1) items vis) :
    ∀ (pages : List (List DriveItem)) (vis : Finset Nat),
      (folder_keys g \ vis).card + 1 ≤ n →
        pagesF g n pages vis = pagesF g (n + 1) pages vis := by
  intro pages
  induction pages with
  | nil =>
    intro vis _
    rw [pagesF_nil, pagesF_nil]
  | cons page rest ih =>
    intro vis hb
    rw [pagesF_cons, pagesF_cons, ← hs page vis hb]
    have hb' : (folder_keys g \ (scanF g n page vis).2).card + 1 ≤ n := by
      have := unvisited_card_anti g (scanF_vis_mono g n page vis)
      omega
    rw [← ih _ hb']

theorem walkF_fuel_step (g : DriveGraph) :
    ∀ (n : Nat) (vis : Finset Nat) (fid : Nat),
      (folder_keys g \ vis).card + 1 ≤ n →
        walkF g n vis fid = walkF g (n + 1) vis fid := by
  intro n
  induction n with
  | zero =>
    intro vis fid h
    exact absurd h (by omega)
  | succ n ih =>
    intro vis fid hb
    by_cases hv : fid ∈ vis
    · rw [walkF_succ_visited g n hv, walkF_succ_visited g (n + 1) hv]
    · rw [walkF_succ_new g n hv, walkF_succ_new g (n + 1) hv]
      by_cases hk : fid ∈ folder_keys g
      · have hbpos : 0 < (folder_keys g \ vis).card :=
          Finset.card_pos.mpr ⟨fid, Finset.mem_sdiff.mpr ⟨hk, hv⟩⟩
        have hsd : folder_keys g \ insert fid vis = (folder_keys g \ vis).erase fid := by
          ext x
          simp only [Finset.mem_sdiff, Finset.mem_erase, Finset.mem_insert]
          tauto
        have hb' : (folder_keys g \ insert fid vis).card + 1 ≤ n := by
          rw [hsd, Finset.card_erase_of_mem (Finset.mem_sdiff.mpr ⟨hk, hv⟩)]
          omega
        exact pagesF_fuel_of g n (scanF_fuel_of g n ih) _ _ hb'
      · rw [children_pages_not_key g fid hk, pagesF_nil, pagesF_nil]

theorem walkF_fuel_ge (g : DriveGraph) (n : Nat) (vis : Finset Nat) (fid : Nat)
    (hn : (folder_keys g \ vis).card + 1 ≤ n) :
    ∀ m, n ≤ m → walkF g m vis fid = walkF g n vis fid := by
  intro m hm
  induction m, hm using Nat.le_induction with
  | base => rfl
  | succ m hm ih =>
    rw [← walkF_fuel_step g m vis fid (by omega), ih]

/-- Any fuel of at least walk_fuel g computes the canonical traversal: the
fueled recursion has stabilised, which is the termination of the source
recursion (the visited set can only grow up to the folder count). -/
theorem walkF_stable (g : DriveGraph) (vis : Finset Nat) (fid : Nat) (n : Nat)
    (hn : walk_fuel g ≤ n) :
    walkF g n vis fid = list_files_recursively g vis fid := by
  have hb : (folder_keys g \ vis).card + 1 ≤ walk_fuel g := by
    rw [walk_fuel]
    have : (folder_keys g \ vis).card ≤ (folder_keys g).card :=
      Finset.card_le_card (Finset.sdiff_subset)
    omega
  rw [list_files_recursively]
  exact walkF_fuel_ge g (walk_fuel g) vis fid hb n hn

theorem occ_file_cons_folder {item : DriveItem} (rest : List DriveItem)
    (f : Nat) (hf : item.isFolder = true) :
    occ_file f (item :: rest) = occ_file f rest := by
  simp [occ_file, List.countP_cons, hf]

theorem occ_pages_cons (f : Nat) (page : List DriveItem)
    (rest : List (List DriveItem)) :
    occ_pages f (page :: rest) = occ_file f page + occ_pages f rest := by
  simp [occ_pages, occ_file, List.countP_append]

theorem unvisited_occ_anti (g : DriveGraph) (f : Nat) {vis vis' : Finset Nat}
    (h : vis ⊆ vis') : unvisited_occ g f vis' ≤ unvisited_occ g f vis :=
  Finset.sum_le_sum_of_subset
    (Finset.sdiff_subset_sdiff (Finset.Subset.refl _) h)

theorem unvisited_occ_insert (g : DriveGraph) (f : Nat) {vis : Finset Nat}
    {fid : Nat} (hk : fid ∈ folder_keys g) (hv : fid ∉ vis) :
    unvisited_occ g f vis =
      occ_pages f (children_pages g fid) + unvisited_occ g f (insert fid vis) := by
  rw [unvisited_occ, unvisited_occ]
  have hsd : folder_keys g \ vis =
      insert fid (folder_keys g \ insert fid vis) := by
    ext x
    simp only [Finset.mem_sdiff, Finset.mem_insert]
    constructor
    · rintro ⟨h1, h2⟩
      rcases eq_or_ne x fid with rfl | hne
      · exact Or.inl rfl
      · exact Or.inr ⟨h1, fun hx => hx.elim hne h2⟩
    · rintro (rfl | ⟨h1, h2⟩)
      · exact ⟨hk, hv⟩
      · exact ⟨h1, fun hxv => h2 (Or.inr hxv)⟩
  rw [hsd, Finset.sum_insert (by simp)]

theorem scanF_count_of (g : DriveGraph) (n : Nat) (f : Nat)
    (hw : ∀ vis fid,
      List.count f (walkF g n vis fid).1 +
        unvisited_occ g f (walkF g n vis fid).2 ≤ unvisited_occ g f vis) :
    ∀ (items : List DriveItem) (vis : Finset Nat),
      List.count f (scanF g n items vis).1 +
        unvisited_occ g f (scanF g n items vis).2 ≤
      occ_file f items + unvisited_occ g f vis := by
  intro items
  induction items with
  | nil =>
    intro vis
    rw [scanF_nil]
    simp
  | cons item rest ih =>
    intro vis
    by_cases hf : item.isFolder = true
    · rw [occ_file_cons_folder rest f hf]
      by_cases hv : item.id ∈ vis
      · rw [scanF_cons_folder_visited g n rest hf hv]
        exact ih vis
      · rw [scanF_cons_folder_new g n rest hf hv]
        have h1 := hw vis item.id
        have h2 := ih ((walkF g n vis item.id).2)
        rw [List.count_append]
        dsimp only
        omega
    · have hf' : item.isFolder = false := by simpa using hf
      rw [scanF_cons_file g n rest vis hf']
      have h2 := ih vis
      have hocc : occ_file f (item :: rest) =
          occ_file f rest + (if item.id = f then 1 else 0) := by
        rcases eq_or_ne item.id f with hit | hit <;>
          simp [occ_file, List.countP_cons, hf', hit]
      have hcount : List.count f (item.id :: (scanF g n rest vis).1) =
          List.count f (scanF g n rest vis).1 + (if item.id = f then 1 else 0) := by
        rcases eq_or_ne item.id f with hit | hit
        · subst hit
          simp [List.count_cons]
        · simp [List.count_cons, hit, Ne.symm hit]
      rw [hcount, hocc]
      dsimp only
      omega

theorem pagesF_count_of (g : DriveGraph) (n : Nat) (f : Nat)
    (hs : ∀ items vis,
      List.count f (scanF g n items vis).1 +
        unvisited_occ g f (scanF g n items vis).2 ≤
      occ_file f items + unvisited_occ g f vis) :
    ∀ (pages : List (List DriveItem)) (vis : Finset Nat),
      List.count f (pagesF g n pages vis).1 +
        unvisited_occ g f (pagesF g n pages vis).2 ≤
      occ_pages f pages + unvisited_occ g f vis := by
  intro pages
  induction pages with
  | nil =>
    intro vis
    rw [pagesF_nil]
    simp [occ_pages, occ_file]
  | cons page rest ih =>
    intro vis
    rw [pagesF_cons, occ_pages_cons, List.count_append]
    have h1 := hs page vis
    have h2 := ih ((scanF g n page vis).2)
    dsimp only
    omega

theorem walkF_count (g : DriveGraph) (f : Nat) :
    ∀ (n : Nat) (vis : Finset Nat) (fid : Nat),
      List.count f (walkF g n vis fid).1 +
        unvisited_occ g f (walkF g n vis fid).2 ≤ unvisited_occ g f vis := by
  intro n
  induction n with
  | zero =>
    intro vis fid
    rw [walkF_zero]
    simp
  | succ n ih =>
    intro vis fid
    by_cases hv : fid ∈ vis
    · rw [walkF_succ_visited g n hv]
      simp
    · rw [walkF_succ_new g n hv]
      by_cases hk : fid ∈ folder_keys g
      · have hpages := pagesF_count_of g n f (scanF_count_of g n f ih)
          (children_pages g fid) (insert fid vis)
        rw [unvisited_occ_insert g f hk hv]
        omega
      · rw [children_pages_not_key g fid hk, pagesF_nil]
        have := unvisited_occ_anti g f (Finset.subset_insert fid vis)
        simpa using this

theorem first_call_mem (g : DriveGraph) (fid : Nat) :
    fid ∈ (list_files_recursively g ∅ fid).2 := by
  rw [list_files_recursively,
    show walk_fuel g = (folder_keys g).card + 1 from rfl,
    walkF_succ_new g ((folder_keys g).card) (Finset.not_mem_empty fid)]
  exact pagesF_vis_mono g _ _ _ (Finset.mem_insert_self fid ∅)

theorem second_call_empty (g : DriveGraph) (fid : Nat) :
    (list_files_recursively g (list_files_recursively g ∅ fid).2 fid).1 = [] := by
  rw [list_files_recursively,
    show walk_fuel g = (folder_keys g).card + 1 from rfl,
    walkF_succ_visited g ((folder_keys g).card) (first_call_mem g fid)]

/-- C5 counterexample: on a fresh instance the traversal of folder 1 returns
its file, but a second direct call of list_files_recursively on the same
instance finds folder 1 already in the persisted _processed_folders set and
returns the empty list instead of the same file list. -/
theorem C5_visited_persistence_counterexample :
    (list_files_recursively tiny_graph ∅ 1).1 = [10] ∧
    (list_files_recursively tiny_graph
      (list_files_recursively tiny_graph ∅ 1).2 1).1 = [] ∧
    (list_files_recursively tiny_graph
        (list_files_recursively tiny_graph ∅ 1).2 1).1 ≠
      (list_files_recursively tiny_graph ∅ 1).1 := by
  have h1 : (list_files_recursively tiny_graph ∅ 1).1 = [10] := by
    rw [list_files_recursively, show walk_fuel tiny_graph = 2 from by decide]
    simp [walkF, pagesF, scanF, tiny_graph, children_pages, List.find?]
  refine ⟨h1, second_call_empty tiny_graph 1, ?_⟩
  rw [h1, second_call_empty tiny_graph 1]
  decide

/-- C5 (amended): the visited-folder state persists on the instance across
direct list_files_recursively calls — a second direct traversal of the same
folder returns the empty list, not the first result — while the
list_drive_files wrapper clears _processed_folders first, so through the
wrapper the traversal is independent of any persisted state. -/
theorem C5_visited_state (g : DriveGraph) (s s' : Finset Nat) (fid : Nat) :
    list_drive_files g s fid = list_drive_files g s' fid ∧
    (list_files_recursively g (list_files_recursively g ∅ fid).2 fid).1 = [] :=
  ⟨rfl, second_call_empty g fid⟩

theorem scanF_all_files (g : DriveGraph) (n : Nat) :
    ∀ (items : List DriveItem) (vis : Finset Nat),
      (∀ i ∈ items, i.isFolder = false) →
        scanF g n items vis = (items.map DriveItem.id, vis) := by
  intro items
  induction items with
  | nil =>
    intro vis _
    rw [scanF_nil]
    rfl
  | cons item rest ih =>
    intro vis hall
    rw [scanF_cons_file g n rest vis (hall item (by simp)),
      ih vis (fun i hi => hall i (by simp [hi]))]
    rfl

theorem pagesF_all_files (g : DriveGraph) (n : Nat) :
    ∀ (pages : List (List DriveItem)) (vis : Finset Nat),
      (∀ page ∈ pages, ∀ i ∈ page, i.isFolder = false) →
        pagesF g n pages vis = (pages.flatten.map DriveItem.id, vis) := by
  intro pages
  induction pages with
  | nil =>
    intro vis _
    rw [pagesF_nil]
    rfl
  | cons page rest ih =>
    intro vis hall
    rw [pagesF_cons, scanF_all_files g n page vis (hall page (by simp)),
      ih vis (fun p hp => hall p (by simp [hp]))]
    simp

/-- C6 counterexample: for a folder whose children span two pages, list_files
returns only the first page, not the union of all pages — its single API call
never loops on the continuation token. -/
theorem C6_first_page_counterexample :
    list_files [[⟨10, false⟩], [⟨11, false⟩]] = [⟨10, false⟩] ∧
    list_files [[⟨10, false⟩], [⟨11, false⟩]] ≠
      ([[⟨10, false⟩], [⟨11, false⟩]] : List (List DriveItem)).flatten := by
  constructor <;> decide

/-- C6 (amended): the standalone list_files returns only the first page; the
pagination loop inside list_files_recursively does consume every page until
no token remains: traversing a folder whose k pages of children are all files
returns exactly the concatenation of all k pages, with no duplicates
introduced (the result is Nodup whenever the listed ids are). -/
theorem C6_pagination (g : DriveGraph) (fid : Nat) (pp : List (List DriveItem))
    (hpp : children_pages g fid = pp)
    (hfiles : ∀ page ∈ pp, ∀ i ∈ page, i.isFolder = false)
    (n : Nat) (vis : Finset Nat) (hv : fid ∉ vis) :
    (walkF g (n + 1) vis fid).1 = pp.flatten.map DriveItem.id ∧
    ((pp.flatten.map DriveItem.id).Nodup → (walkF g (n + 1) vis fid).1.Nodup) := by
  have h : (walkF g (n + 1) vis fid).1 = pp.flatten.map DriveItem.id := by
    rw [walkF_succ_new g n hv, hpp, pagesF_all_files g n pp _ hfiles]
  exact ⟨h, fun hnd => h ▸ hnd⟩

/-- Witness for C6 at a concrete folder with two pages of one file each. -/
theorem C6_pagination_witness :
    (walkF paged_graph 1 ∅ 1).1 = [10, 11] :=
  ((C6_pagination paged_graph 1 [[⟨10, false⟩], [⟨11, false⟩]] rfl (by decide)
    0 ∅ (Finset.not_mem_empty 1)).1).trans (by decide)

/-- C7 counterexample: on cycle_graph (which contains a genuine cycle), the
traversal terminates but returns the file 10 twice — once per parent folder —
so it does not return each object at most once. -/
theorem C7_at_most_once_counterexample :
    (list_files_recursively cycle_graph ∅ 1).1 = [10, 10] ∧
    List.count 10 (list_files_recursively cycle_graph ∅ 1).1 = 2 := by
  have h : (list_files_recursively cycle_graph ∅ 1).1 = [10, 10] := by
    rw [← walkF_stable cycle_graph ∅ 1 4 (by decide)]
    simp [walkF, pagesF, scanF, cycle_graph, children_pages, List.find?]
  refine ⟨h, by rw [h]; rfl⟩

/-- C7 (amended): on every container graph, cyclic ones included, the
traversal terminates — the fueled recursion stabilises at walk_fuel g, the
visited set blocking any re-entry — and each file is returned at most once
per parent folder listing it: the multiplicity of any file in the result is
bounded by its total number of occurrences in the children tables, so a file
with a single parent appears at most once, while one linked from several
folders may appear once per parent. -/
theorem C7_walk_termination (g : DriveGraph) (fid f : Nat) :
    (∀ n, walk_fuel g ≤ n →
      walkF g n ∅ fid = list_files_recursively g ∅ fid) ∧
    List.count f (list_files_recursively g ∅ fid).1 ≤ unvisited_occ g f ∅ := by
  refine ⟨fun n hn => walkF_stable g ∅ fid n hn, ?_⟩
  have h := walkF_count g f (walk_fuel g) ∅ fid
  rw [list_files_recursively]
  omega

/-- Witness for C7 on the cyclic graph with surplus fuel. -/
theorem C7_walk_termination_witness :
    walkF cycle_graph 7 ∅ 1 = list_files_recursively cycle_graph ∅ 1 ∧
    List.count 10 (list_files_recursively cycle_graph ∅ 1).1 ≤
      unvisited_occ cycle_graph 10 ∅ :=
  ⟨(C7_walk_termination cycle_graph 1 10).1 7 (by decide),
    (C7_walk_termination cycle_graph 1 10).2⟩

end SDE
